import Mathlib

/-!
Verification of the Spark operator-side transfer and coordination code.

Shallow embedding of the Go sources under the repository (wallet transaction
builders, tree-node locking, signing-nonce lookup) together with models of
the transfer state machine taken from the specification where the handler
code itself is not part of the provided sources.  Machine integers are
modelled as `Int`/`Nat`; Go `float64` arithmetic in `createSplitTx` is
modelled by exact rational arithmetic with truncation toward zero (the
concrete inputs used in the statements below are exactly representable, so
the rational model and IEEE-754 `float64` agree on them).
-/

namespace Spark

/-! ## Bitcoin transaction data model (btcd `wire` types, as used by the code) -/

/-- An outpoint: reference to a previous transaction output (`wire.OutPoint`). -/
structure OutPoint where
  txid : Nat
  index : Nat
  deriving DecidableEq, Repr

/-- A transaction output (`wire.TxOut`): amount in sats and a pkScript (bytes). -/
structure TxOut where
  value : Int
  pkScript : List Nat
  deriving DecidableEq, Repr

/-- A transaction input (`wire.TxIn`): previous outpoint and the nSequence field. -/
structure TxIn where
  previousOutPoint : OutPoint
  sequence : Nat
  deriving DecidableEq, Repr

/-- A bitcoin transaction (`wire.MsgTx`): version, inputs, outputs. -/
structure MsgTx where
  version : Int
  txIn : List TxIn
  txOut : List TxOut
  deriving DecidableEq, Repr

/-- Default nSequence used by `wire.NewTxIn` (`wire.MaxTxInSequenceNum`). -/
def MaxTxInSequenceNum : Nat := 0xffffffff

/-! ## Wallet transaction builders (`spark/wallet/transaction.go`)

`common.DefaultFeeSats` is a constant of the `common` package, which is not
among the provided sources; every builder below therefore takes the fee as an
explicit `feeSats` argument.  Likewise `common.P2TRScriptFromPubKey` is
abstracted as a function argument `p2tr` from (abstract) public keys to
script bytes. -/

/-- The ephemeral anchor output (`EphemeralAnchorOutput`):
value 0, script `[OP_TRUE, 0x02, 0x4e, 0x73]` (`OP_TRUE` = 0x51). -/
def EphemeralAnchorOutput : TxOut :=
  { value := 0, pkScript := [0x51, 0x02, 0x4e, 0x73] }

/-- Embedding of `maybeApplyFee`: subtracts the default fee from the amount if
the amount is strictly greater than the fee, otherwise returns the amount
unchanged. -/
def maybeApplyFee (feeSats : Int) (amount : Int) : Int :=
  if amount > feeSats then amount - feeSats else amount

/-- Embedding of `createRootTx`: version-3 tx spending the deposit outpoint,
with one output carrying the fee-adjusted deposit amount. -/
def createRootTx (feeSats : Int) (depositOutPoint : OutPoint) (depositTxOut : TxOut) : MsgTx :=
  { version := 3
    txIn := [{ previousOutPoint := depositOutPoint, sequence := MaxTxInSequenceNum }]
    txOut := [{ value := maybeApplyFee feeSats depositTxOut.value
                pkScript := depositTxOut.pkScript }] }

/-- Truncation of a rational toward zero, the behaviour of Go's `int64(f)`
conversion on a `float64` value. -/
def truncQ (q : ℚ) : Int :=
  if 0 ≤ q then ⌊q⌋ else -⌊-q⌋

/-- The per-output amount adjustment of `createSplitTx` when the fee is
applied: `int64(float64(value) * (1 - feeRatio))` with
`feeRatio = fee/total`, modelled by exact rational arithmetic truncated
toward zero. -/
def splitAdjustedAmount (feeSats total value : Int) : Int :=
  truncQ ((value : ℚ) * (1 - (feeSats : ℚ) / (total : ℚ)))

/-- Embedding of `createSplitTx`: version-3 tx spending the parent outpoint.
If the total child output amount exceeds the fee, each output is scaled by
`(1 - fee/total)`; otherwise the child outputs pass through unchanged. -/
def createSplitTx (feeSats : Int) (parentOutPoint : OutPoint) (childTxOuts : List TxOut) : MsgTx :=
  let totalOutputAmount : Int := (childTxOuts.map TxOut.value).sum
  let outs : List TxOut :=
    if totalOutputAmount > feeSats then
      childTxOuts.map (fun txOut =>
        { value := splitAdjustedAmount feeSats totalOutputAmount txOut.value
          pkScript := txOut.pkScript })
    else
      childTxOuts
  { version := 3
    txIn := [{ previousOutPoint := parentOutPoint, sequence := MaxTxInSequenceNum }]
    txOut := outs }

/-- Embedding of `createNodeTx`: version-3 tx spending the parent outpoint,
with one fee-adjusted output and no timelock. -/
def createNodeTx (feeSats : Int) (parentOutPoint : OutPoint) (txOut : TxOut) : MsgTx :=
  { version := 3
    txIn := [{ previousOutPoint := parentOutPoint, sequence := MaxTxInSequenceNum }]
    txOut := [{ value := maybeApplyFee feeSats txOut.value, pkScript := txOut.pkScript }] }

/-- Embedding of `createLeafNodeTx`: version-3 tx spending the parent
outpoint with the given sequence; the output amount is fee-adjusted only
when `shouldCalculateFee` is set. -/
def createLeafNodeTx (feeSats : Int) (sequence : Nat) (parentOutPoint : OutPoint)
    (txOut : TxOut) (shouldCalculateFee : Bool) : MsgTx :=
  { version := 3
    txIn := [{ previousOutPoint := parentOutPoint, sequence := sequence }]
    txOut := [{ value := if shouldCalculateFee then maybeApplyFee feeSats txOut.value
                         else txOut.value
                pkScript := txOut.pkScript }] }

/-- Embedding of `createRefundTxs`: builds the CPFP refund (full amount to
the receiver's P2TR script plus the ephemeral anchor) and the direct refund
(single output, fee-adjusted when requested), both spending the node
outpoint with the given sequence. -/
def createRefundTxs (feeSats : Int) (p2tr : Nat → List Nat) (sequence : Nat)
    (nodeOutPoint : OutPoint) (amountSats : Int) (receivingPubkey : Nat)
    (shouldCalculateFee : Bool) : MsgTx × MsgTx :=
  let refundPkScript := p2tr receivingPubkey
  let cpfpRefundTx : MsgTx :=
    { version := 3
      txIn := [{ previousOutPoint := nodeOutPoint, sequence := sequence }]
      txOut := [{ value := amountSats, pkScript := refundPkScript }, EphemeralAnchorOutput] }
  let outputAmount := if shouldCalculateFee then maybeApplyFee feeSats amountSats else amountSats
  let directRefundTx : MsgTx :=
    { version := 3
      txIn := [{ previousOutPoint := nodeOutPoint, sequence := sequence }]
      txOut := [{ value := outputAmount, pkScript := refundPkScript }] }
  (cpfpRefundTx, directRefundTx)

/-! ## Tree nodes and locking (`so/ent/treenode_extension.go`) -/

/-- Status of a tree node (`schematype.TreeNodeStatus`). -/
inductive TreeNodeStatus where
  | creating
  | available
  | splitLocked
  | transferLocked
  | splitted
  | exited
  deriving DecidableEq, Repr

/-- A tree-node row as seen by `MarkNodeAsLocked`: its id and status. -/
structure TreeNodeRow where
  nodeId : Nat
  status : TreeNodeStatus
  deriving DecidableEq, Repr

/-- A database query descriptor: which node id is selected and whether the
query takes a row-level exclusive lock (`ForUpdate()`). -/
structure NodeQuery where
  nodeId : Nat
  forUpdate : Bool
  deriving DecidableEq, Repr

/-- The query issued by `MarkNodeAsLocked`:
`db.TreeNode.Query().Where(ID(nodeID)).ForUpdate()`. -/
def markNodeAsLockedQuery (nodeID : Nat) : NodeQuery :=
  { nodeId := nodeID, forUpdate := true }

/-- Embedding of `MarkNodeAsLocked`.  The requested status must be a locked
status; the node is fetched with `Only` (exactly one row); the node must be
`available`; on success only its status changes. -/
def markNodeAsLocked (nodeID : Nat) (nodeStatus : TreeNodeStatus)
    (db : List TreeNodeRow) : Except String (List TreeNodeRow) :=
  if nodeStatus ≠ TreeNodeStatus.splitLocked ∧ nodeStatus ≠ TreeNodeStatus.transferLocked then
    Except.error "not updating node status to a locked state"
  else
    match db.filter (fun row => row.nodeId = (markNodeAsLockedQuery nodeID).nodeId) with
    | [node] =>
      if node.status ≠ TreeNodeStatus.available then
        Except.error "node not in a state to be locked"
      else
        Except.ok (db.map (fun row =>
          if row.nodeId = nodeID then { row with status := nodeStatus } else row))
    | _ => Except.error "ent: treenode not found"

/-- The database state after a call to `markNodeAsLocked`: the updated rows
on success, the original rows when the call returned an error (the
transaction wrote nothing). -/
def markNodeAsLockedRun (nodeID : Nat) (nodeStatus : TreeNodeStatus)
    (db : List TreeNodeRow) : List TreeNodeRow :=
  match markNodeAsLocked nodeID nodeStatus db with
  | Except.ok db' => db'
  | Except.error _ => db

/-- Embedding of `GetRefundTxTimeLock` (`so/ent/treenode_extension.go`): the
refund timelock is the low 16 bits of the refund tx's first input sequence
(`refundTx.TxIn[0].Sequence & 0xFFFF`, i.e. `sequence % 2^16`). -/
def refundTxTimeLock (sequence : Nat) : Nat :=
  sequence % 65536

/-! ## Transfer state machine (spec §4.4)

The transfer handler itself (`so/handler/transfer_handler.go`) is not among
the provided sources; only its tests and callers are.  The definitions below
are therefore modelled from the specification. -/

/-- Status of a transfer (spec §4.4 state machine). -/
inductive TransferStatus where
  | senderInitiated
  | senderKeyTweakPending
  | senderKeyTweaked
  | receiverKeyTweaked
  | completed
  | cancelled
  | expired
  deriving DecidableEq, Repr

/-- Type of a transfer (spec §3). -/
inductive TransferType where
  | transfer
  | counterSwap
  | cooperativeExit
  | preimageSwap
  deriving DecidableEq, Repr

/-- gRPC status codes surfaced to callers (spec §7). -/
inductive GrpcCode where
  | invalidArgument
  | permissionDenied
  | notFound
  | failedPrecondition
  | conflict
  | aborted
  | internal
  deriving DecidableEq, Repr

/-- Bitcoin network of a tree (spec §4.5 `query_pending`). -/
inductive Network where
  | mainnet
  | regtest
  | testnet
  | signet
  deriving DecidableEq, Repr

/-- A leaf attached to a transfer: its id and the network of its tree. -/
structure TransferLeaf where
  leafId : Nat
  network : Network
  deriving DecidableEq, Repr

/-- A transfer record (spec §3). -/
structure Transfer where
  transferId : Nat
  ttype : TransferType
  senderIdentity : Nat
  receiverIdentity : Nat
  expiryTime : Nat
  status : TransferStatus
  leaves : List TransferLeaf
  deriving DecidableEq, Repr

/-- A leaf row of the Leaf Store: id, owner identity and status. -/
structure LeafRow where
  leafId : Nat
  ownerIdentityPubkey : Nat
  status : TreeNodeStatus
  deriving DecidableEq, Repr

/-- A cooperative-exit row (spec §3, §4.4): exit id, the transfer it gates,
the exit txid, and the height at which the exit tx confirmed (`none` while
unconfirmed, as in `coop_exit_handler.go` which creates the row with a nil
`ConfirmationHeight`). -/
structure CoopExitRow where
  exitId : Nat
  transferId : Nat
  exitTxid : Nat
  confirmationHeight : Option Nat
  deriving DecidableEq, Repr

/-- Modelled from the spec: `CoopExitConfirmationThreshold`, the base-chain
confirmations required before a cooperative-exit claim is allowed (spec §6:
"default six"); the constant lives in the handler package, which is not
among the provided sources. -/
def CoopExitConfirmationThreshold : Nat := 6

/-- Modelled from the spec: the number of on-chain confirmations of the exit
tx at the current chain tip (spec §4.6); a tx confirmed at height `h` has
`tip - h + 1` confirmations at tip ≥ `h`, and an unconfirmed tx has none. -/
def coopExitConfirmations (currentHeight : Nat) (confirmationHeight : Option Nat) : Nat :=
  match confirmationHeight with
  | none => 0
  | some h => if h ≤ currentHeight then currentHeight - h + 1 else 0

/-- Modelled from the spec: the claim-time gate for cooperative exits
(spec §4.4 Cooperative Exit, §8 property 6): claiming is refused with
`FailedPrecondition` until the exit tx has at least
`CoopExitConfirmationThreshold` confirmations; transfers without a
cooperative-exit row are not gated. -/
def checkCoopExitGate (currentHeight : Nat) (exitRow : Option CoopExitRow) :
    Except GrpcCode Unit :=
  match exitRow with
  | none => Except.ok ()
  | some ce =>
    if coopExitConfirmations currentHeight ce.confirmationHeight <
        CoopExitConfirmationThreshold then
      Except.error GrpcCode.failedPrecondition
    else
      Except.ok ()

/-- Modelled from the spec: the receiver-side claim entry point
(`ClaimTransferTweakKeys`, spec §4.5), whose handler is not among the
provided sources.  It requires the transfer to exist, the caller to be the
receiver, the status to be `SENDER_KEY_TWEAKED`, and — for cooperative
exits — the confirmation gate to be open; on success the transfer advances
to `RECEIVER_KEY_TWEAKED`. -/
def claimTransferTweakKeys (identity : Nat) (transferId : Nat) (currentHeight : Nat)
    (transfers : List Transfer) (coopExits : List CoopExitRow) :
    Except GrpcCode Transfer :=
  match transfers.find? (fun t => t.transferId == transferId) with
  | none => Except.error GrpcCode.notFound
  | some t =>
    if t.receiverIdentity ≠ identity then
      Except.error GrpcCode.permissionDenied
    else if t.status ≠ TransferStatus.senderKeyTweaked then
      Except.error GrpcCode.failedPrecondition
    else
      match checkCoopExitGate currentHeight
          (coopExits.find? (fun ce => ce.transferId == transferId)) with
      | Except.error e => Except.error e
      | Except.ok _ => Except.ok { t with status := TransferStatus.receiverKeyTweaked }

/-- Request payload of `InitiateTransfer` (spec §6). -/
structure InitiateTransferRequest where
  transferId : Nat
  senderIdentity : Nat
  receiverIdentity : Nat
  expiryTime : Nat
  leaves : List TransferLeaf
  deriving DecidableEq, Repr

/-- Modelled from the spec: the `InitiateTransfer` handler (spec §4.4
INIT → SENDER_INITIATED and scenario S2), whose code is not among the
provided sources.  A request with an empty leaf list is rejected with
`InvalidArgument`; otherwise a transfer in `SENDER_INITIATED` is created
over the supplied leaves. -/
def initiateTransfer (req : InitiateTransferRequest) (transfers : List Transfer) :
    Except GrpcCode (Transfer × List Transfer) :=
  if req.leaves.isEmpty then
    Except.error GrpcCode.invalidArgument
  else
    let t : Transfer :=
      { transferId := req.transferId
        ttype := TransferType.transfer
        senderIdentity := req.senderIdentity
        receiverIdentity := req.receiverIdentity
        expiryTime := req.expiryTime
        status := TransferStatus.senderInitiated
        leaves := req.leaves }
    Except.ok (t, t :: transfers)

/-- The transfer table after a call to `initiateTransfer`: unchanged when
the call returned an error. -/
def initiateTransferRun (req : InitiateTransferRequest) (transfers : List Transfer) :
    List Transfer :=
  match initiateTransfer req transfers with
  | Except.ok r => r.2
  | Except.error _ => transfers

/-- Modelled from the spec: `CancelTransfer` (spec §4.4 Cancellation),
whose handler is not among the provided sources.  Cancellation is allowed
only while the status is `SENDER_INITIATED` or `SENDER_KEY_TWEAK_PENDING`
(the sender has not yet tweaked); the transfer becomes `CANCELLED` and its
leaves revert to `available` under the sender.  In any later status —
in particular `SENDER_KEY_TWEAKED` — it is refused with
`FailedPrecondition`, independently of the expiry time. -/
def cancelTransfer (transferId : Nat) (transfers : List Transfer) (leaves : List LeafRow) :
    Except GrpcCode (List Transfer × List LeafRow) :=
  match transfers.find? (fun t => t.transferId == transferId) with
  | none => Except.error GrpcCode.notFound
  | some t =>
    if t.status = TransferStatus.senderInitiated ∨
        t.status = TransferStatus.senderKeyTweakPending then
      Except.ok
        (transfers.map (fun u =>
           if u.transferId = transferId then { u with status := TransferStatus.cancelled }
           else u),
         leaves.map (fun l =>
           if l.leafId ∈ t.leaves.map TransferLeaf.leafId then
             { l with ownerIdentityPubkey := t.senderIdentity
                      status := TreeNodeStatus.available }
           else l))
    else
      Except.error GrpcCode.failedPrecondition

/-- Modelled from the spec: `query_pending(identity, network)` (spec §4.5),
whose handler is not among the provided sources.  Returns the transfers
whose receiver is the caller, whose status is `SENDER_KEY_TWEAKED`, and all
of whose leaves live on the requested network. -/
def queryPendingTransfers (identity : Nat) (network : Network)
    (transfers : List Transfer) : List Transfer :=
  transfers.filter (fun t =>
    t.receiverIdentity == identity &&
    t.status == TransferStatus.senderKeyTweaked &&
    t.leaves.all (fun l => l.network == network))

/-! ## Signing nonce pool (spec §4.2, §5) -/

/-- A signing-nonce row (`so/ent/signingnonce_extension.go`): the secret
nonce and its 66-byte commitment (both abstracted to naturals). -/
structure SigningNonceRow where
  nonce : Nat
  nonceCommitment : Nat
  deriving DecidableEq, Repr

/-- Modelled from the spec: `consume(commitment) → nonce` (spec §4.2, §5).
`GetSigningNonceFromCommitment` (in the provided sources) performs the
lookup by commitment; the consuming update — "a single DB UPDATE gated on
commitment equality" that makes the nonce single-use — is not among the
provided sources and is modelled by removing the entry from the pool. -/
def consumeNonce (commitment : Nat) (pool : List SigningNonceRow) :
    Except GrpcCode (Nat × List SigningNonceRow) :=
  match pool.find? (fun e => e.nonceCommitment == commitment) with
  | none => Except.error GrpcCode.notFound
  | some e =>
    Except.ok (e.nonce, pool.filter (fun e => e.nonceCommitment != commitment))

/-! ## Refund-tx sequence decrement (spec §4.4) -/

/-- Modelled from the spec: `getNextTransactionSequence` (called by
`signCoopExitRefunds` in the provided sources, defined in a wallet utility
module that is not).  Each new refund tx decrements the relative-timelock
field of the old refund tx's sequence — its low 16 bits, matching
`GetRefundTxTimeLock` — by a fixed delta; if the old timelock is below the
delta the transfer is refused. -/
def getNextTransactionSequence (delta : Nat) (currSequence : Nat) :
    Except String Nat :=
  if refundTxTimeLock currSequence < delta then
    Except.error "timelock depleted, transfer refused"
  else
    Except.ok (currSequence - delta)

/-! ## Concurrent claims (spec §4.5, §5, §8 property 2)

Spec §5 serializes all state transitions of one transfer behind its DB row
lock, so concurrent `claim_transfer` calls execute as a sequence of atomic
attempts; the interleaving is modelled as the order of that sequence, an
attempt being `true` when it is interrupted (loses its DB transaction) and
rolls back. -/

/-- Outcome of one claim attempt. -/
inductive ClaimOutcome where
  | success
  | conflict
  deriving DecidableEq, Repr

/-- State of the race: the transfer status and the leaf's owner. -/
structure ClaimRaceState where
  status : TransferStatus
  leafOwner : Nat
  deriving DecidableEq, Repr

/-- Modelled from the spec: one `claim_transfer` attempt as an atomic DB
transaction (spec §5, §4.5).  An attempt that finds the transfer no longer
in `SENDER_KEY_TWEAKED` observes `Conflict`; an interrupted attempt rolls
its writes back, leaving the transfer claimable; a completed attempt moves
the leaf under the receiver. -/
def claimAttempt (receiver : Nat) (interrupted : Bool) (s : ClaimRaceState) :
    ClaimOutcome × ClaimRaceState :=
  if s.status ≠ TransferStatus.senderKeyTweaked then
    (ClaimOutcome.conflict, s)
  else if interrupted then
    (ClaimOutcome.conflict, s)
  else
    (ClaimOutcome.success,
     { status := TransferStatus.completed, leafOwner := receiver })

/-- Runs a sequence of serialized claim attempts, collecting their outcomes
and the final state. -/
def runClaimAttempts (receiver : Nat) (s : ClaimRaceState) :
    List Bool → List ClaimOutcome × ClaimRaceState
  | [] => ([], s)
  | i :: rest =>
    let r := claimAttempt receiver i s
    let rs := runClaimAttempts receiver r.2 rest
    (r.1 :: rs.1, rs.2)

/-! ## Theorems -/

/-- Characterization of the success path of `markNodeAsLocked`: the call
returns an updated database exactly when the requested status is a locked
status, the node id selects exactly one row, and that row is `available`;
the update changes only that row's status. -/
lemma markNodeAsLocked_ok_iff (nodeID : Nat) (nodeStatus : TreeNodeStatus)
    (db db' : List TreeNodeRow) :
    markNodeAsLocked nodeID nodeStatus db = Except.ok db' ↔
      (nodeStatus = TreeNodeStatus.splitLocked ∨ nodeStatus = TreeNodeStatus.transferLocked) ∧
      ∃ node, db.filter (fun row => row.nodeId = nodeID) = [node] ∧
        node.status = TreeNodeStatus.available ∧
        db' = db.map (fun row =>
          if row.nodeId = nodeID then { row with status := nodeStatus } else row) := by
  unfold markNodeAsLocked markNodeAsLockedQuery
  constructor
  · intro h
    split at h
    · exact absurd h (by simp)
    · rename_i hlock
      rw [not_and_or, not_not, not_not] at hlock
      split at h
      · rename_i node hf
        split at h
        · exact absurd h (by simp)
        · rename_i hav
          rw [not_not] at hav
          simp only [Except.ok.injEq] at h
          exact ⟨hlock, node, hf, hav, h.symm⟩
      · exact absurd h (by simp)
  · rintro ⟨hlock, node, hf, hav, hdb⟩
    rw [if_neg (by rw [not_and_or, not_not, not_not]; exact hlock), hf]
    simp [hav, hdb]

/-- Every error path of `markNodeAsLocked` leaves the database unchanged. -/
lemma markNodeAsLockedRun_of_error (nodeID : Nat) (nodeStatus : TreeNodeStatus)
    (db : List TreeNodeRow) (msg : String)
    (h : markNodeAsLocked nodeID nodeStatus db = Except.error msg) :
    markNodeAsLockedRun nodeID nodeStatus db = db := by
  unfold markNodeAsLockedRun
  rw [h]

/-- Claim C3: `MarkNodeAsLocked` issues its node lookup with a row-level
exclusive (`FOR UPDATE`) query; whenever the selected node's status is not
`available` it returns an error and the database is unchanged; and a
successful call updates the node's status only to a locked status
(`split_locked` or `transfer_locked`), changing nothing else. -/
theorem claim_C3_lock_for_update (nodeID : Nat) (nodeStatus : TreeNodeStatus)
    (db : List TreeNodeRow) :
    (markNodeAsLockedQuery nodeID).forUpdate = true ∧
    (∀ node, db.filter (fun row => row.nodeId = nodeID) = [node] →
       node.status ≠ TreeNodeStatus.available →
       (∃ msg, markNodeAsLocked nodeID nodeStatus db = Except.error msg) ∧
       markNodeAsLockedRun nodeID nodeStatus db = db) ∧
    (∀ msg, markNodeAsLocked nodeID nodeStatus db = Except.error msg →
       markNodeAsLockedRun nodeID nodeStatus db = db) ∧
    (∀ db', markNodeAsLocked nodeID nodeStatus db = Except.ok db' →
       (nodeStatus = TreeNodeStatus.splitLocked ∨ nodeStatus = TreeNodeStatus.transferLocked) ∧
       db' = db.map (fun row =>
         if row.nodeId = nodeID then { row with status := nodeStatus } else row)) := by
  refine ⟨rfl, ?_, markNodeAsLockedRun_of_error nodeID nodeStatus db, ?_⟩
  · intro node hf hav
    have herr : ∃ msg, markNodeAsLocked nodeID nodeStatus db = Except.error msg := by
      cases hres : markNodeAsLocked nodeID nodeStatus db with
      | error msg => exact ⟨msg, rfl⟩
      | ok db' =>
        rw [markNodeAsLocked_ok_iff] at hres
        obtain ⟨-, node', hf', hav', -⟩ := hres
        rw [hf] at hf'
        cases hf'
        exact absurd hav' hav
    obtain ⟨msg, hmsg⟩ := herr
    exact ⟨⟨msg, hmsg⟩, markNodeAsLockedRun_of_error nodeID nodeStatus db msg hmsg⟩
  · intro db' h
    rw [markNodeAsLocked_ok_iff] at h
    obtain ⟨hlock, node, -, -, hdb⟩ := h
    exact ⟨hlock, hdb⟩

/-- Witness for claim C3 at a concrete database: node 1 is `creating`, so
locking fails and the database is unchanged. -/
theorem claim_C3_lock_for_update_witness :
    (∃ msg, markNodeAsLocked 1 TreeNodeStatus.transferLocked
        [{ nodeId := 1, status := TreeNodeStatus.creating }] = Except.error msg) ∧
    markNodeAsLockedRun 1 TreeNodeStatus.transferLocked
        [{ nodeId := 1, status := TreeNodeStatus.creating }] =
      [{ nodeId := 1, status := TreeNodeStatus.creating }] :=
  (claim_C3_lock_for_update 1 TreeNodeStatus.transferLocked
      [{ nodeId := 1, status := TreeNodeStatus.creating }]).2.1
    { nodeId := 1, status := TreeNodeStatus.creating } (by decide) (by decide)

/-- Claim C6, counterexample: the direct refund's output is not always the
leaf amount minus `DefaultFeeSats` when fee calculation is requested — for
any positive fee, a leaf amount not exceeding the fee is kept unchanged by
`maybeApplyFee` rather than having the fee subtracted. -/
theorem claim_C6_counterexample :
    ¬ (∀ (feeSats : Int), 0 < feeSats →
        ∀ (p2tr : Nat → List Nat) (seq : Nat) (op : OutPoint) (amt : Int) (pk : Nat),
          0 < amt →
          ((createRefundTxs feeSats p2tr seq op amt pk true).2.txOut.map TxOut.value) =
            [amt - feeSats]) := by
  intro h
  have h1 := h 2 (by norm_num) (fun _ => []) 0 { txid := 0, index := 0 } 1 0 (by norm_num)
  norm_num [createRefundTxs, maybeApplyFee] at h1

/-- Claim C6 (amended): for every leaf, `createRefundTxs` builds exactly two
refund transactions spending the node outpoint with the requested sequence:
a CPFP refund whose first output pays the full leaf amount to the receiver's
P2TR script followed by the ephemeral anchor output, and a direct refund
with a single output to the same script whose amount, when fee calculation
is requested, is the leaf amount minus `DefaultFeeSats` if the amount
exceeds the fee and the unchanged leaf amount otherwise. -/
theorem claim_C6_create_refund_txs (feeSats : Int) (p2tr : Nat → List Nat) (seq : Nat)
    (op : OutPoint) (amt : Int) (pk : Nat) (shouldCalculateFee : Bool) :
    (createRefundTxs feeSats p2tr seq op amt pk shouldCalculateFee).1.txIn =
      [{ previousOutPoint := op, sequence := seq }] ∧
    (createRefundTxs feeSats p2tr seq op amt pk shouldCalculateFee).2.txIn =
      [{ previousOutPoint := op, sequence := seq }] ∧
    (createRefundTxs feeSats p2tr seq op amt pk shouldCalculateFee).1.txOut =
      [{ value := amt, pkScript := p2tr pk }, EphemeralAnchorOutput] ∧
    (createRefundTxs feeSats p2tr seq op amt pk shouldCalculateFee).2.txOut =
      [{ value := if shouldCalculateFee then maybeApplyFee feeSats amt else amt,
         pkScript := p2tr pk }] ∧
    (shouldCalculateFee = true → feeSats < amt →
      (createRefundTxs feeSats p2tr seq op amt pk shouldCalculateFee).2.txOut =
        [{ value := amt - feeSats, pkScript := p2tr pk }]) ∧
    (shouldCalculateFee = true → amt ≤ feeSats →
      (createRefundTxs feeSats p2tr seq op amt pk shouldCalculateFee).2.txOut =
        [{ value := amt, pkScript := p2tr pk }]) := by
  refine ⟨rfl, rfl, rfl, rfl, ?_, ?_⟩
  · rintro rfl hlt
    simp [createRefundTxs, maybeApplyFee, hlt]
  · rintro rfl hle
    simp [createRefundTxs, maybeApplyFee, not_lt.mpr hle]

/-- Witness for claim C6 at fee 2, amount 5: the direct refund's only output
carries 5 − 2 = 3 sats. -/
theorem claim_C6_create_refund_txs_witness :
    (createRefundTxs 2 (fun _ => [1]) 7 { txid := 3, index := 0 } 5 9 true).2.txOut =
      [{ value := 3, pkScript := [1] }] :=
  (claim_C6_create_refund_txs 2 (fun _ => [1]) 7 { txid := 3, index := 0 } 5 9
      true).2.2.2.2.1 rfl (by norm_num)

/-- A scaled split output is nonnegative: when the fee is nonnegative and
strictly below the total, scaling a nonnegative amount by `(1 - fee/total)`
and truncating stays nonnegative. -/
lemma splitAdjustedAmount_nonneg (feeSats total value : Int) (hv : 0 ≤ value)
    (hf : 0 ≤ feeSats) (hft : feeSats < total) :
    0 ≤ splitAdjustedAmount feeSats total value := by
  unfold splitAdjustedAmount truncQ
  have htotal : (0 : ℚ) < (total : Int) := by exact_mod_cast lt_of_le_of_lt hf hft
  have hratio : (feeSats : ℚ) / (total : ℚ) ≤ 1 := by
    rw [div_le_one htotal]
    exact_mod_cast le_of_lt hft
  have hprod : (0 : ℚ) ≤ (value : ℚ) * (1 - (feeSats : ℚ) / (total : ℚ)) :=
    mul_nonneg (by exact_mod_cast hv) (by linarith)
  rw [if_pos hprod]
  exact Int.floor_nonneg.mpr hprod

/-- Claim C10, counterexample: fee application can zero an output.  With fee
2 and child outputs of 1 and 3 sats, `createSplitTx` scales each output by
`1 − 2/4 = 1/2` (exact in `float64`), truncating the 1-sat output to 0 —
a positive input amount yields a non-positive output amount, and an amount
below the fee is not kept unchanged. -/
theorem claim_C10_counterexample :
    ¬ (∀ (feeSats : Int), 0 < feeSats →
        ∀ (op : OutPoint) (childTxOuts : List TxOut),
          (∀ o ∈ childTxOuts, 0 < o.value) →
          ∀ o ∈ (createSplitTx feeSats op childTxOuts).txOut, 0 < o.value) := by
  intro h
  have h1 : splitAdjustedAmount 2 4 1 = 0 := by
    unfold splitAdjustedAmount truncQ
    rw [if_pos (by norm_num)]
    norm_num
  have h3 : splitAdjustedAmount 2 4 3 = 1 := by
    unfold splitAdjustedAmount truncQ
    rw [if_pos (by norm_num)]
    norm_num
  have heval : (createSplitTx 2 { txid := 0, index := 0 }
      [{ value := 1, pkScript := [] }, { value := 3, pkScript := [] }]).txOut =
      [{ value := 0, pkScript := [] }, { value := 1, pkScript := [] }] := by
    norm_num [createSplitTx, h1, h3]
  have h1 := h 2 (by norm_num) { txid := 0, index := 0 }
      [{ value := 1, pkScript := [] }, { value := 3, pkScript := [] }]
      (by decide) { value := 0, pkScript := [] } (by rw [heval]; simp)
  exact absurd h1 (by norm_num)

/-- Claim C10 (amended): the builders that adjust a single output through
`maybeApplyFee` (root, node, leaf-node, direct refund) keep an amount not
exceeding `DefaultFeeSats` unchanged, subtract the fee otherwise, and so
always turn a positive amount into a positive amount.  `createSplitTx`
instead guards on the *total* child amount: when the total does not exceed
the fee the child outputs pass through unchanged, and otherwise every output
is scaled by `(1 − fee/total)` and truncated, which keeps nonnegative
amounts nonnegative but can round a small positive output down to zero. -/
theorem claim_C10_fee_never_inverts (feeSats : Int) (op : OutPoint) (txo : TxOut)
    (childTxOuts : List TxOut) (seq : Nat) (p2tr : Nat → List Nat) (amt : Int) (pk : Nat) :
    (txo.value ≤ feeSats → maybeApplyFee feeSats txo.value = txo.value) ∧
    (feeSats < txo.value → maybeApplyFee feeSats txo.value = txo.value - feeSats) ∧
    (0 < txo.value → 0 < maybeApplyFee feeSats txo.value) ∧
    ((createRootTx feeSats op txo).txOut.map TxOut.value =
       [maybeApplyFee feeSats txo.value]) ∧
    ((createNodeTx feeSats op txo).txOut.map TxOut.value =
       [maybeApplyFee feeSats txo.value]) ∧
    ((createLeafNodeTx feeSats seq op txo true).txOut.map TxOut.value =
       [maybeApplyFee feeSats txo.value]) ∧
    ((createRefundTxs feeSats p2tr seq op amt pk true).2.txOut.map TxOut.value =
       [maybeApplyFee feeSats amt]) ∧
    ((childTxOuts.map TxOut.value).sum ≤ feeSats →
       (createSplitTx feeSats op childTxOuts).txOut = childTxOuts) ∧
    (0 ≤ feeSats → feeSats < (childTxOuts.map TxOut.value).sum →
       (∀ o ∈ childTxOuts, 0 ≤ o.value) →
       ∀ o ∈ (createSplitTx feeSats op childTxOuts).txOut, 0 ≤ o.value) := by
  refine ⟨?_, ?_, ?_, rfl, rfl, rfl, rfl, ?_, ?_⟩
  · intro hle
    simp [maybeApplyFee, not_lt.mpr hle]
  · intro hlt
    simp [maybeApplyFee, hlt]
  · intro hpos
    unfold maybeApplyFee
    split_ifs with hf <;> omega
  · intro hle
    simp [createSplitTx, not_lt.mpr hle]
  · intro hf hlt hvals o ho
    simp only [createSplitTx, if_pos hlt, List.mem_map] at ho
    obtain ⟨o0, ho0, rfl⟩ := ho
    exact splitAdjustedAmount_nonneg feeSats _ o0.value (hvals o0 ho0) hf hlt

/-- Witness for claim C10: with fee 10 and child outputs summing to 4, the
split tx passes the outputs through unchanged. -/
theorem claim_C10_fee_never_inverts_witness :
    (createSplitTx 10 { txid := 0, index := 0 }
        [{ value := 1, pkScript := [] }, { value := 3, pkScript := [] }]).txOut =
      [{ value := 1, pkScript := [] }, { value := 3, pkScript := [] }] :=
  (claim_C10_fee_never_inverts 10 { txid := 0, index := 0 } { value := 1, pkScript := [] }
      [{ value := 1, pkScript := [] }, { value := 3, pkScript := [] }] 0 (fun _ => []) 0
      0).2.2.2.2.2.2.2.1 (by decide)

/-- Claim C7: a successful sequence decrement yields a strictly smaller
sequence, smaller by exactly the fixed delta (also on the 16-bit timelock
field), and the transfer is refused when the old timelock is below the
delta. -/
theorem claim_C7_sequence_monotonic (delta : Nat) (hdelta : 0 < delta) (s s' : Nat) :
    (getNextTransactionSequence delta s = Except.ok s' →
       s' = s - delta ∧ s' < s ∧
       refundTxTimeLock s' = refundTxTimeLock s - delta) ∧
    (refundTxTimeLock s < delta →
       ∃ msg, getNextTransactionSequence delta s = Except.error msg) := by
  constructor
  · intro h
    unfold getNextTransactionSequence at h
    split at h
    · exact absurd h (by simp)
    · rename_i hge
      rw [not_lt] at hge
      simp only [Except.ok.injEq] at h
      subst h
      unfold refundTxTimeLock at hge ⊢
      refine ⟨rfl, ?_, ?_⟩ <;> omega
  · intro h
    unfold getNextTransactionSequence
    rw [if_pos h]
    exact ⟨_, rfl⟩

/-- Witness for claim C7: decrementing sequence 2000 by delta 100 gives
1900, which is smaller by 100, also on the timelock field. -/
theorem claim_C7_sequence_monotonic_witness :
    1900 = 2000 - 100 ∧ 1900 < 2000 ∧
    refundTxTimeLock 1900 = refundTxTimeLock 2000 - 100 :=
  (claim_C7_sequence_monotonic 100 (by norm_num) 2000 1900).1 rfl

/-- Claim C1: for a cooperative-exit transfer whose other claim
preconditions hold (the transfer exists, the caller is the receiver, the
sender has tweaked), the claim is refused with `FailedPrecondition` while
the exit tx has fewer than `CoopExitConfirmationThreshold` confirmations,
and succeeds once the confirmations reach the threshold. -/
theorem claim_C1_coop_exit_gate (identity transferId currentHeight : Nat)
    (transfers : List Transfer) (coopExits : List CoopExitRow)
    (t : Transfer) (ce : CoopExitRow)
    (hfind : transfers.find? (fun u => u.transferId == transferId) = some t)
    (hrecv : t.receiverIdentity = identity)
    (hstatus : t.status = TransferStatus.senderKeyTweaked)
    (hce : coopExits.find? (fun c => c.transferId == transferId) = some ce) :
    (coopExitConfirmations currentHeight ce.confirmationHeight <
        CoopExitConfirmationThreshold →
      claimTransferTweakKeys identity transferId currentHeight transfers coopExits =
        Except.error GrpcCode.failedPrecondition) ∧
    (CoopExitConfirmationThreshold ≤
        coopExitConfirmations currentHeight ce.confirmationHeight →
      claimTransferTweakKeys identity transferId currentHeight transfers coopExits =
        Except.ok { t with status := TransferStatus.receiverKeyTweaked }) := by
  have hne1 : ¬ t.receiverIdentity ≠ identity := by simp [hrecv]
  have hne2 : ¬ t.status ≠ TransferStatus.senderKeyTweaked := by simp [hstatus]
  unfold claimTransferTweakKeys checkCoopExitGate
  rw [hfind]
  simp only [if_neg hne1, if_neg hne2, hce]
  constructor
  · intro hlt
    simp only [if_pos hlt]
  · intro hge
    simp only [if_neg (not_lt.mpr hge)]

/-- Witness for claim C1: at chain tip 102, an exit confirmed at height 100
has 3 < 6 confirmations, so claiming fails with `FailedPrecondition`. -/
theorem claim_C1_coop_exit_gate_witness :
    claimTransferTweakKeys 20 1 102
      [{ transferId := 1, ttype := TransferType.cooperativeExit, senderIdentity := 10,
         receiverIdentity := 20, expiryTime := 0,
         status := TransferStatus.senderKeyTweaked, leaves := [] }]
      [{ exitId := 5, transferId := 1, exitTxid := 99, confirmationHeight := some 100 }] =
      Except.error GrpcCode.failedPrecondition :=
  (claim_C1_coop_exit_gate 20 1 102
      [{ transferId := 1, ttype := TransferType.cooperativeExit, senderIdentity := 10,
         receiverIdentity := 20, expiryTime := 0,
         status := TransferStatus.senderKeyTweaked, leaves := [] }]
      [{ exitId := 5, transferId := 1, exitTxid := 99, confirmationHeight := some 100 }]
      { transferId := 1, ttype := TransferType.cooperativeExit, senderIdentity := 10,
        receiverIdentity := 20, expiryTime := 0,
        status := TransferStatus.senderKeyTweaked, leaves := [] }
      { exitId := 5, transferId := 1, exitTxid := 99, confirmationHeight := some 100 }
      rfl rfl rfl rfl).1 (by decide)

/-- Claim C2: consuming a signing nonce by commitment is single-use — a
successful consume returns the nonce stored under that commitment, and a
second consume with the same commitment on the resulting pool fails. -/
theorem claim_C2_nonce_single_use (commitment : Nat) (pool : List SigningNonceRow)
    (n : Nat) (pool' : List SigningNonceRow)
    (h : consumeNonce commitment pool = Except.ok (n, pool')) :
    (∃ e, pool.find? (fun e => e.nonceCommitment == commitment) = some e ∧
       e.nonce = n) ∧
    consumeNonce commitment pool' = Except.error GrpcCode.notFound := by
  unfold consumeNonce at h ⊢
  cases hf : pool.find? (fun e => e.nonceCommitment == commitment) with
  | none =>
    rw [hf] at h
    exact absurd h (by simp)
  | some e =>
    rw [hf] at h
    simp only [Except.ok.injEq, Prod.mk.injEq] at h
    obtain ⟨hn, hp⟩ := h
    refine ⟨⟨e, rfl, hn⟩, ?_⟩
    have hnone : (pool.filter (fun e => e.nonceCommitment != commitment)).find?
        (fun e => e.nonceCommitment == commitment) = none := by
      rw [List.find?_eq_none]
      intro x hx
      have hpred := List.of_mem_filter hx
      simpa using hpred
    rw [← hp, hnone]

/-- Witness for claim C2: consuming commitment 42 from a one-entry pool
returns nonce 7; the second consume on the emptied pool fails. -/
theorem claim_C2_nonce_single_use_witness :
    (∃ e, List.find? (fun e : SigningNonceRow => e.nonceCommitment == 42)
        [{ nonce := 7, nonceCommitment := 42 }] = some e ∧ e.nonce = 7) ∧
    consumeNonce 42 [] = Except.error GrpcCode.notFound :=
  claim_C2_nonce_single_use 42 [{ nonce := 7, nonceCommitment := 42 }] 7 [] rfl

/-- Claim C5: `InitiateTransfer` with an empty leaf list is rejected with
`InvalidArgument` and creates no transfer. -/
theorem claim_C5_zero_leaf_rejected (req : InitiateTransferRequest)
    (transfers : List Transfer) (h : req.leaves = []) :
    initiateTransfer req transfers = Except.error GrpcCode.invalidArgument ∧
    initiateTransferRun req transfers = transfers := by
  constructor
  · simp [initiateTransfer, h]
  · simp [initiateTransferRun, initiateTransfer, h]

/-- Witness for claim C5 at a concrete empty request. -/
theorem claim_C5_zero_leaf_rejected_witness :
    initiateTransfer
        { transferId := 1, senderIdentity := 2, receiverIdentity := 3,
          expiryTime := 4, leaves := [] } [] =
      Except.error GrpcCode.invalidArgument ∧
    initiateTransferRun
        { transferId := 1, senderIdentity := 2, receiverIdentity := 3,
          expiryTime := 4, leaves := [] } [] = [] :=
  claim_C5_zero_leaf_rejected
    { transferId := 1, senderIdentity := 2, receiverIdentity := 3,
      expiryTime := 4, leaves := [] } [] rfl

/-- Claim C4: `CancelTransfer` succeeds while the transfer is in
`SENDER_INITIATED` or `SENDER_KEY_TWEAK_PENDING` (the sender has not
tweaked), reverting the transfer's leaves to `available` under the sender
and marking the transfer `CANCELLED`; once the status is
`SENDER_KEY_TWEAKED` it is refused with `FailedPrecondition`, even after the
expiry time has passed. -/
theorem claim_C4_cancel_transfer (transferId : Nat) (transfers : List Transfer)
    (leaves : List LeafRow) (t : Transfer)
    (hfind : transfers.find? (fun u => u.transferId == transferId) = some t) :
    (t.status = TransferStatus.senderInitiated ∨
       t.status = TransferStatus.senderKeyTweakPending →
      ∃ ts' ls', cancelTransfer transferId transfers leaves = Except.ok (ts', ls') ∧
        (∀ l ∈ ls', l.leafId ∈ t.leaves.map TransferLeaf.leafId →
           l.ownerIdentityPubkey = t.senderIdentity ∧
           l.status = TreeNodeStatus.available) ∧
        (∀ u ∈ ts', u.transferId = transferId →
           u.status = TransferStatus.cancelled)) ∧
    (t.status = TransferStatus.senderKeyTweaked →
      ∀ now : Nat, t.expiryTime < now →
        cancelTransfer transferId transfers leaves =
          Except.error GrpcCode.failedPrecondition) := by
  constructor
  · intro hst
    unfold cancelTransfer
    rw [hfind]
    simp only [if_pos hst]
    refine ⟨_, _, rfl, ?_, ?_⟩
    · intro l hl hmem
      rw [List.mem_map] at hl
      obtain ⟨l0, hl0, rfl⟩ := hl
      by_cases hc : l0.leafId ∈ t.leaves.map TransferLeaf.leafId
      · rw [if_pos hc]
        exact ⟨rfl, rfl⟩
      · rw [if_neg hc]
        rw [if_neg hc] at hmem
        exact absurd hmem hc
    · intro u hu huid
      rw [List.mem_map] at hu
      obtain ⟨u0, hu0, rfl⟩ := hu
      by_cases hc : u0.transferId = transferId
      · rw [if_pos hc]
      · rw [if_neg hc]
        rw [if_neg hc] at huid
        exact absurd huid hc
  · intro hst now hnow
    unfold cancelTransfer
    rw [hfind]
    have hno : ¬ (t.status = TransferStatus.senderInitiated ∨
        t.status = TransferStatus.senderKeyTweakPending) := by
      simp [hst]
    simp only [if_neg hno]

/-- Witness for claim C4: cancelling a `SENDER_INITIATED` transfer over
leaf 8 succeeds, and the leaf comes back `available` under the sender. -/
theorem claim_C4_cancel_transfer_witness :
    ∃ ts' ls', cancelTransfer 1
        [{ transferId := 1, ttype := TransferType.transfer, senderIdentity := 10,
           receiverIdentity := 20, expiryTime := 0,
           status := TransferStatus.senderInitiated,
           leaves := [{ leafId := 8, network := Network.regtest }] }]
        [{ leafId := 8, ownerIdentityPubkey := 10,
           status := TreeNodeStatus.transferLocked }] = Except.ok (ts', ls') ∧
      (∀ l ∈ ls', l.leafId ∈
          ({ transferId := 1, ttype := TransferType.transfer, senderIdentity := 10,
             receiverIdentity := 20, expiryTime := 0,
             status := TransferStatus.senderInitiated,
             leaves := [{ leafId := 8, network := Network.regtest }] } :
            Transfer).leaves.map TransferLeaf.leafId →
         l.ownerIdentityPubkey = 10 ∧ l.status = TreeNodeStatus.available) ∧
      (∀ u ∈ ts', u.transferId = 1 → u.status = TransferStatus.cancelled) :=
  (claim_C4_cancel_transfer 1
      [{ transferId := 1, ttype := TransferType.transfer, senderIdentity := 10,
         receiverIdentity := 20, expiryTime := 0,
         status := TransferStatus.senderInitiated,
         leaves := [{ leafId := 8, network := Network.regtest }] }]
      [{ leafId := 8, ownerIdentityPubkey := 10,
         status := TreeNodeStatus.transferLocked }]
      { transferId := 1, ttype := TransferType.transfer, senderIdentity := 10,
        receiverIdentity := 20, expiryTime := 0,
        status := TransferStatus.senderInitiated,
        leaves := [{ leafId := 8, network := Network.regtest }] }
      rfl).1 (Or.inl rfl)

/-- Claim C8: `query_pending(identity, network)` returns exactly the
transfers whose receiver is the caller, whose status is
`SENDER_KEY_TWEAKED` and whose leaves all live on the requested network;
when every candidate has a leaf on a different network the result is
empty. -/
theorem claim_C8_query_pending (identity : Nat) (network : Network)
    (transfers : List Transfer) :
    (∀ t, t ∈ queryPendingTransfers identity network transfers ↔
       t ∈ transfers ∧ t.receiverIdentity = identity ∧
       t.status = TransferStatus.senderKeyTweaked ∧
       ∀ l ∈ t.leaves, l.network = network) ∧
    ((∀ t ∈ transfers, ∃ l ∈ t.leaves, l.network ≠ network) →
       queryPendingTransfers identity network transfers = []) := by
  have hmem : ∀ t, t ∈ queryPendingTransfers identity network transfers ↔
      t ∈ transfers ∧ t.receiverIdentity = identity ∧
      t.status = TransferStatus.senderKeyTweaked ∧
      ∀ l ∈ t.leaves, l.network = network := by
    intro t
    unfold queryPendingTransfers
    rw [List.mem_filter]
    simp [and_assoc]
  refine ⟨hmem, ?_⟩
  intro hnet
  rw [List.eq_nil_iff_forall_not_mem]
  intro t ht
  rw [hmem t] at ht
  obtain ⟨htmem, -, -, hall⟩ := ht
  obtain ⟨l, hl, hlnet⟩ := hnet t htmem
  exact hlnet (hall l hl)

/-- Witness for claim C8: a pending transfer whose only leaf is on mainnet
is not returned when querying regtest. -/
theorem claim_C8_query_pending_witness :
    queryPendingTransfers 20 Network.regtest
      [{ transferId := 1, ttype := TransferType.transfer, senderIdentity := 10,
         receiverIdentity := 20, expiryTime := 0,
         status := TransferStatus.senderKeyTweaked,
         leaves := [{ leafId := 8, network := Network.mainnet }] }] = [] :=
  (claim_C8_query_pending 20 Network.regtest
      [{ transferId := 1, ttype := TransferType.transfer, senderIdentity := 10,
         receiverIdentity := 20, expiryTime := 0,
         status := TransferStatus.senderKeyTweaked,
         leaves := [{ leafId := 8, network := Network.mainnet }] }]).2 (by decide)

/-- A claim attempt against a transfer that is no longer in
`SENDER_KEY_TWEAKED` observes a conflict and changes nothing. -/
lemma claimAttempt_of_not_tweaked (receiver : Nat) (i : Bool) (s : ClaimRaceState)
    (hs : s.status ≠ TransferStatus.senderKeyTweaked) :
    claimAttempt receiver i s = (ClaimOutcome.conflict, s) := by
  unfold claimAttempt
  rw [if_pos hs]

/-- An interrupted claim attempt rolls back: conflict, state unchanged. -/
lemma claimAttempt_interrupted (receiver : Nat) (s : ClaimRaceState)
    (hs : s.status = TransferStatus.senderKeyTweaked) :
    claimAttempt receiver true s = (ClaimOutcome.conflict, s) := by
  simp [claimAttempt, hs]

/-- An uninterrupted claim attempt on a `SENDER_KEY_TWEAKED` transfer
succeeds and moves the leaf under the receiver. -/
lemma claimAttempt_completes (receiver : Nat) (s : ClaimRaceState)
    (hs : s.status = TransferStatus.senderKeyTweaked) :
    claimAttempt receiver false s =
      (ClaimOutcome.success,
       { status := TransferStatus.completed, leafOwner := receiver }) := by
  simp [claimAttempt, hs]

/-- Once the transfer has left `SENDER_KEY_TWEAKED`, every further attempt
conflicts and the state never changes again. -/
lemma runClaimAttempts_of_not_tweaked (receiver : Nat) (s : ClaimRaceState)
    (hs : s.status ≠ TransferStatus.senderKeyTweaked) (attempts : List Bool) :
    runClaimAttempts receiver s attempts =
      (attempts.map (fun _ => ClaimOutcome.conflict), s) := by
  induction attempts with
  | nil => rfl
  | cons i rest ih =>
    simp only [runClaimAttempts, claimAttempt_of_not_tweaked receiver i s hs, ih,
      List.map_cons]

/-- From a `SENDER_KEY_TWEAKED` transfer, a serialized sequence of claim
attempts yields at most one success; the state is unchanged when no attempt
succeeded, and lies completed under the receiver when one did. -/
lemma runClaimAttempts_of_tweaked (receiver : Nat) (s : ClaimRaceState)
    (hs : s.status = TransferStatus.senderKeyTweaked) (attempts : List Bool) :
    ((runClaimAttempts receiver s attempts).1.count ClaimOutcome.success ≤ 1) ∧
    ((runClaimAttempts receiver s attempts).1.count ClaimOutcome.success = 0 →
       (runClaimAttempts receiver s attempts).2 = s) ∧
    ((runClaimAttempts receiver s attempts).1.count ClaimOutcome.success = 1 →
       (runClaimAttempts receiver s attempts).2 =
         { status := TransferStatus.completed, leafOwner := receiver }) := by
  induction attempts with
  | nil => simp [runClaimAttempts]
  | cons i rest ih =>
    cases i with
    | true =>
      simp only [runClaimAttempts, claimAttempt_interrupted receiver s hs,
        List.count_cons]
      simpa using ih
    | false =>
      simp only [runClaimAttempts, claimAttempt_completes receiver s hs]
      rw [runClaimAttempts_of_not_tweaked receiver _ (by simp) rest]
      simp [List.count_cons, List.count_replicate]

/-- Claim C9: for a transfer in `SENDER_KEY_TWEAKED`, any serialized
sequence of concurrent claim attempts produces at most one success; every
other attempt observes a conflict; the leaf ends under exactly one owner —
the receiver when a claim succeeded, still the sender otherwise; and when
every attempt failed through contention the transfer is left in
`SENDER_KEY_TWEAKED`, so a single uninterrupted retry succeeds. -/
theorem claim_C9_no_double_claim (receiver sender : Nat) (attempts : List Bool)
    (s : ClaimRaceState) (hs : s.status = TransferStatus.senderKeyTweaked)
    (howner : s.leafOwner = sender) :
    ((runClaimAttempts receiver s attempts).1.count ClaimOutcome.success ≤ 1) ∧
    (∀ r ∈ (runClaimAttempts receiver s attempts).1,
       r = ClaimOutcome.success ∨ r = ClaimOutcome.conflict) ∧
    ((runClaimAttempts receiver s attempts).2.leafOwner = receiver ∨
       (runClaimAttempts receiver s attempts).2.leafOwner = sender) ∧
    ((runClaimAttempts receiver s attempts).1.count ClaimOutcome.success = 1 →
       (runClaimAttempts receiver s attempts).2 =
         { status := TransferStatus.completed, leafOwner := receiver }) ∧
    ((runClaimAttempts receiver s attempts).1.count ClaimOutcome.success = 0 →
       (runClaimAttempts receiver s attempts).2 = s ∧
       (claimAttempt receiver false (runClaimAttempts receiver s attempts).2).1 =
         ClaimOutcome.success) := by
  obtain ⟨h1, h0, hone⟩ := runClaimAttempts_of_tweaked receiver s hs attempts
  refine ⟨h1, ?_, ?_, hone, ?_⟩
  · intro r hr
    cases r
    · exact Or.inl rfl
    · exact Or.inr rfl
  · rcases Nat.lt_or_ge
        ((runClaimAttempts receiver s attempts).1.count ClaimOutcome.success) 1 with
      hc | hc
    · right
      rw [h0 (by omega)]
      exact howner
    · left
      rw [hone (le_antisymm h1 hc)]
  · intro hzero
    refine ⟨h0 hzero, ?_⟩
    rw [h0 hzero, claimAttempt_completes receiver s hs]

/-- Witness for claim C9: five attempts, the first two interrupted, against
a tweaked transfer owned by sender 10 produce exactly one success. -/
theorem claim_C9_no_double_claim_witness :
    (runClaimAttempts 20 { status := TransferStatus.senderKeyTweaked, leafOwner := 10 }
        [true, true, false, false, false]).1.count ClaimOutcome.success ≤ 1 :=
  (claim_C9_no_double_claim 20 10 [true, true, false, false, false]
      { status := TransferStatus.senderKeyTweaked, leafOwner := 10 } rfl rfl).1

end Spark
